import Mathlib

set_option maxHeartbeats 1000000

/-!
Verification of the Open3D Filament resource-manager and renderer layer
(FilamentResourceManager.cpp, FilamentRenderer.cpp): a shallow embedding of
the handle containers, the dependency-cascade destruction, the pending
texture-upload registry, and the per-frame coordinator, together with
theorems checking the stated properties of these components.
-/

namespace Open3D

/-- Resource kinds dispatched on by FilamentResourceManager::Destroy. The
seven managed constructors mirror the EntityType cases of the switch in
Destroy; Unknown stands for every other EntityType value, all of which fall
into the default branch of that switch. -/
inductive EntityType where
  | Material
  | MaterialInstance
  | Texture
  | VertexBuffer
  | IndexBuffer
  | Skybox
  | IndirectLight
  | Unknown
  deriving DecidableEq, Repr

/-- REHandle_abstract: a typed handle, a pair of an EntityType and a numeric
sequence id. Id zero is the invalid sentinel (a default-constructed handle,
Handle::kBad). -/
structure REHandle where
  type : EntityType
  id : Nat
  deriving DecidableEq, Repr

/-- The invalid handle of a given kind (Handle::kBad / default construction). -/
def REHandle.bad (t : EntityType) : REHandle := ⟨t, 0⟩

/-- geometry::Image: width, height, channel count, bytes per channel and the
raw byte buffer. Only the fields the resource manager reads are modelled. -/
structure Image where
  width : Nat
  height : Nat
  num_of_channels : Nat
  bytes_per_channel : Nat
  data : List Nat
  deriving DecidableEq, Repr

/-- Modelled from the spec: geometry::Image::HasData (declared outside the
given sources). Per the spec, CreateTexture "rejects images with no pixel
data", so an image has data exactly when its pixel buffer is non-empty. -/
def Image.HasData (img : Image) : Bool := !img.data.isEmpty

/-- Observable events of the resource manager: log lines, native destruction
through the engine-deleter of a container entry, pending-image registry
traffic, engine builder calls, and error-callback invocations. -/
inductive Ev where
  | logDebugDefaultDestroy (h : REHandle)
  | logErrorNonexistent (h : REHandle)
  | logWarnUnsuited (t : EntityType)
  | erased (h : REHandle)
  | retained (id : Nat)
  | logDebugUnknownImage (id : Nat)
  | logWarnEmptyPath
  | engineCreateTexture
  | engineSetImage (id : Nat)
  | engineKtxCreateTexture
  | engineDestroyTexture
  | engineBuildIndirectLight
  | errorCallback (code : Int) (msg : String)
  deriving DecidableEq, Repr

/-- State of FilamentResourceManager: the per-kind resource containers
(materials_, material_instances_, textures_, vertex_buffers_,
index_buffers_, ibls_, skyboxes_, indexed here by their EntityType and
holding the numeric ids of the registered handles), the dependencies_ map,
the per-kind Handle::Next counters, and the global pending_images map with
its static img_id counter. -/
structure RMState where
  containers : EntityType → List Nat
  deps : REHandle → Option (List REHandle)
  nextId : EntityType → Nat
  img_id : Nat
  pending_images : List (Nat × Image)

/-- A fresh manager state: empty containers, no dependency records, all
handle counters at 1 (the first Handle::Next result) and the image-retain
counter at its static initial value 1. -/
def initState : RMState where
  containers := fun _ => []
  deps := fun _ => none
  nextId := fun _ => 1
  img_id := 1
  pending_images := []

/-- Replace the container of one resource kind. -/
def RMState.setContainer (s : RMState) (t : EntityType) (c : List Nat) : RMState :=
  { s with containers := fun u => if u = t then c else s.containers u }

/-- Erase the dependencies_ record of a handle (dependencies_.erase(found)). -/
def RMState.eraseDeps (s : RMState) (h : REHandle) : RMState :=
  { s with deps := fun x => if x = h then none else s.deps x }

/-- The default-resource handles, in the static-initialization order of
their Handle::Next() calls in FilamentResourceManager.cpp. -/
def kDefaultLit : REHandle := ⟨EntityType.Material, 1⟩

def kDefaultUnlit : REHandle := ⟨EntityType.Material, 2⟩

def kDefaultNormalShader : REHandle := ⟨EntityType.Material, 3⟩

def kDefaultDepthShader : REHandle := ⟨EntityType.Material, 4⟩

def kDepthMaterial : REHandle := ⟨EntityType.MaterialInstance, 1⟩

def kNormalsMaterial : REHandle := ⟨EntityType.MaterialInstance, 2⟩

def kColorMapMaterial : REHandle := ⟨EntityType.MaterialInstance, 3⟩

def kDefaultTexture : REHandle := ⟨EntityType.Texture, 1⟩

def kDefaultColorMap : REHandle := ⟨EntityType.Texture, 2⟩

def kDefaultNormalMap : REHandle := ⟨EntityType.Texture, 3⟩

/-- kDefaultResources: the fixed default-resource set consulted first by
Destroy. Exactly the nine members listed in the source (kColorMapMaterial
is not a member). -/
def kDefaultResources : List REHandle :=
  [kDefaultLit, kDefaultUnlit, kDefaultNormalShader, kDefaultDepthShader,
   kDepthMaterial, kNormalsMaterial, kDefaultTexture, kDefaultColorMap,
   kDefaultNormalMap]

/-- DestroyResource: look the handle up in the given container; erase the
entry when found (the shared-reference deleter then performs the native
destruction, recorded as an erased event), otherwise log an error and leave
the container unchanged. -/
def destroyResource (h : REHandle) (c : List Nat) : List Nat × List Ev :=
  if h.id ∈ c then (c.erase h.id, [Ev.erased h]) else (c, [Ev.logErrorNonexistent h])

mutual

/-- FilamentResourceManager::Destroy, with an explicit fuel bound on the
recursion depth (the C++ recursion is unbounded only on dependency cycles,
which the design declares out of scope). A default resource is refused with
a debug log; a handle whose kind is outside the seven managed cases gets a
warning and an early return (its dependencies are not consulted); otherwise
the entry is erased from its kind's container (or an error is logged when
absent), then every recorded dependent is destroyed recursively and the
dependency record is erased afterward. -/
def destroyFuel : Nat → RMState → REHandle → RMState × List Ev
  | 0, s, _ => (s, [])
  | n + 1, s, h =>
    if h ∈ kDefaultResources then
      (s, [Ev.logDebugDefaultDestroy h])
    else if h.type = EntityType.Unknown then
      (s, [Ev.logWarnUnsuited h.type])
    else
      let r := destroyResource h (s.containers h.type)
      let s1 := s.setContainer h.type r.1
      match s1.deps h with
      | none => (s1, r.2)
      | some ds =>
        let r2 := destroyEach n s1 ds
        (r2.1.eraseDeps h, r.2 ++ r2.2)
termination_by n _ _ => (n, 0)

/-- The loop over the dependent set inside Destroy: destroy each recorded
dependent in order, threading the state. -/
def destroyEach : Nat → RMState → List REHandle → RMState × List Ev
  | _, s, [] => (s, [])
  | n, s, d :: ds =>
    let r1 := destroyFuel n s d
    let r2 := destroyEach n r1.1 ds
    (r2.1, r1.2 ++ r2.2)
termination_by n _ ds => (n, ds.length + 1)

end

/-- RetainImageForLoading: retain the image in the global pending_images map
under the current value of the static img_id counter, advance the counter,
and return the id used. -/
def RetainImageForLoading (s : RMState) (img : Image) : RMState × Nat :=
  ({ s with pending_images := (s.img_id, img) :: s.pending_images,
            img_id := s.img_id + 1 }, s.img_id)

/-- Remove the first entry with the given key (pending_images.erase(found)). -/
def removeKey (id : Nat) : List (Nat × Image) → List (Nat × Image)
  | [] => []
  | e :: es => if e.1 = id then es else e :: removeKey id es

/-- Whether the registry holds an entry under the given transfer-id. -/
def hasKey (id : Nat) (l : List (Nat × Image)) : Bool :=
  l.any (fun e => e.1 == id)

/-- FreeRetainedImage: the completion callback. A known id erases its entry;
an unknown id is logged at debug severity and the registry is unchanged. -/
def FreeRetainedImage (s : RMState) (id : Nat) : RMState × List Ev :=
  if hasKey id s.pending_images then
    ({ s with pending_images := removeKey id s.pending_images }, [])
  else
    (s, [Ev.logDebugUnknownImage id])

/-- LoadTextureFromImage: retain the source image first, then issue the
engine calls (Texture::Builder().build and setImage, the latter carrying the
retained id in the PixelBufferDescriptor callback slot). Returns the new
state, the transfer-id used, and the event trace in source order. -/
def LoadTextureFromImage (s : RMState) (img : Image) : RMState × Nat × List Ev :=
  let r := RetainImageForLoading s img
  (r.1, r.2, [Ev.retained r.2, Ev.engineCreateTexture, Ev.engineSetImage r.2])

/-- Issue a sequence of texture uploads, collecting the transfer-ids. -/
def uploadMany (s : RMState) : List Image → RMState × List Nat
  | [] => (s, [])
  | img :: imgs =>
    let r := LoadTextureFromImage s img
    let r2 := uploadMany r.1 imgs
    (r2.1, r.2.1 :: r2.2)

/-- Fire the completion callback for each id in the list in order. -/
def freeMany (s : RMState) : List Nat → RMState
  | [] => s
  | id :: ids => freeMany (FreeRetainedImage s id).1 ids

/-- Counter invariant of the pending-upload registry: every retained key is
below the static counter, so the counter value is always a fresh key. -/
def pendingInv (s : RMState) : Prop :=
  ∀ e ∈ s.pending_images, e.1 < s.img_id

/-- Key distinctness of the registry (unordered_map keys are unique). -/
def keysNodup (l : List (Nat × Image)) : Prop :=
  (l.map Prod.fst).Nodup

theorem hasKey_eq_false_iff (id : Nat) (l : List (Nat × Image)) :
    hasKey id l = false ↔ ∀ e ∈ l, e.1 ≠ id := by
  simp [hasKey, List.any_eq_true]

theorem hasKey_of_inv {s : RMState} (hinv : pendingInv s) :
    hasKey s.img_id s.pending_images = false := by
  rw [hasKey_eq_false_iff]
  intro e he
  exact Nat.ne_of_lt (hinv e he)

theorem removeKey_eq_filter (id : Nat) :
    ∀ l : List (Nat × Image), keysNodup l →
      removeKey id l = l.filter (fun e => e.1 != id) := by
  intro l
  induction l with
  | nil => intro _; rfl
  | cons e es ih =>
    intro hnd
    have hnd' : keysNodup es := (List.nodup_cons.mp hnd).2
    by_cases h : e.1 = id
    · have hnot : e.1 ∉ es.map Prod.fst := (List.nodup_cons.mp hnd).1
      have hfil : es.filter (fun x => x.1 != id) = es := by
        apply List.filter_eq_self.mpr
        intro a ha
        have : a.1 ≠ id := by
          intro hc
          exact hnot (h ▸ hc ▸ List.mem_map_of_mem Prod.fst ha)
        simpa using this
      simp [removeKey, h, hfil]
    · simp only [removeKey, if_neg h, List.filter]
      have : (e.1 != id) = true := by simpa using h
      rw [this, ih hnd']

theorem removeKey_of_absent (id : Nat) :
    ∀ l : List (Nat × Image), hasKey id l = false → removeKey id l = l := by
  intro l
  induction l with
  | nil => intro _; rfl
  | cons e es ih =>
    intro hk
    rw [hasKey_eq_false_iff] at hk
    have h1 : e.1 ≠ id := hk e (List.mem_cons_self e es)
    have h2 : hasKey id es = false := by
      rw [hasKey_eq_false_iff]
      exact fun a ha => hk a (List.mem_cons_of_mem e ha)
    simp [removeKey, h1, ih h2]

theorem keysNodup_filter (p : Nat × Image → Bool) {l : List (Nat × Image)}
    (h : keysNodup l) : keysNodup (l.filter p) :=
  List.Nodup.sublist (List.Sublist.map Prod.fst (List.filter_sublist l)) h

theorem freeMany_pending :
    ∀ (ids : List Nat) (s : RMState), keysNodup s.pending_images →
      (freeMany s ids).pending_images =
        s.pending_images.filter (fun e => decide (e.1 ∉ ids)) := by
  intro ids
  induction ids with
  | nil =>
    intro s _
    simp [freeMany]
  | cons a l ih =>
    intro s hnd
    show (freeMany (FreeRetainedImage s a).1 l).pending_images = _
    by_cases hk : hasKey a s.pending_images = true
    · have hstep : (FreeRetainedImage s a).1.pending_images =
          s.pending_images.filter (fun e => e.1 != a) := by
        simp [FreeRetainedImage, hk]
        exact removeKey_eq_filter a _ hnd
      have hnd' : keysNodup (FreeRetainedImage s a).1.pending_images := by
        rw [hstep]; exact keysNodup_filter _ hnd
      rw [ih _ hnd', hstep, List.filter_filter]
      apply List.filter_congr
      intro e _
      by_cases he : e.1 = a
      · simp [he]
      · simp [he]
    · have hk' : hasKey a s.pending_images = false := by
        simpa using hk
      have hstep : (FreeRetainedImage s a).1 = s := by
        simp [FreeRetainedImage, hk']
      rw [hstep, ih _ hnd]
      apply List.filter_congr
      intro e hmem
      have : e.1 ≠ a := (hasKey_eq_false_iff a _).mp hk' e hmem
      simp [this]

theorem uploadMany_spec :
    ∀ (imgs : List Image) (s : RMState),
      (uploadMany s imgs).1.img_id = s.img_id + imgs.length ∧
      (uploadMany s imgs).2 = List.range' s.img_id imgs.length ∧
      (uploadMany s imgs).1.pending_images =
        (List.zip (List.range' s.img_id imgs.length) imgs).reverse ++
          s.pending_images := by
  intro imgs
  induction imgs with
  | nil =>
    intro s
    refine ⟨rfl, rfl, by simp [uploadMany]⟩
  | cons img imgs ih =>
    intro s
    obtain ⟨h1, h2, h3⟩ := ih (LoadTextureFromImage s img).1
    have hid : (LoadTextureFromImage s img).1.img_id = s.img_id + 1 := rfl
    have hpend : (LoadTextureFromImage s img).1.pending_images =
        (s.img_id, img) :: s.pending_images := rfl
    have hrange : List.range' s.img_id (img :: imgs).length =
        s.img_id :: List.range' (s.img_id + 1) imgs.length := by
      rw [List.length_cons, List.range'_succ]
    refine ⟨?_, ?_, ?_⟩
    · show (uploadMany (LoadTextureFromImage s img).1 imgs).1.img_id = _
      rw [h1, hid, List.length_cons]
      omega
    · show ((LoadTextureFromImage s img).2.1 ::
          (uploadMany (LoadTextureFromImage s img).1 imgs).2) = _
      rw [h2, hid, hrange]
      rfl
    · show (uploadMany (LoadTextureFromImage s img).1 imgs).1.pending_images = _
      rw [h3, hid, hpend, hrange]
      simp [List.zip]

/-- Sample 1x1 RGB image used by concrete witnesses. -/
def sampleImage : Image := ⟨1, 1, 3, 1, [255, 0, 0]⟩

/-- C2: the pending-upload protocol. (a) Every texture upload retains the
source image under a fresh transfer-id (not already a key of the registry),
with the retain event strictly before the engine calls in the trace, adding
exactly the new entry and preserving the counter invariant. (b) A
completion callback with a known id removes exactly that entry, logging
nothing. (c) A callback with an unknown id only logs and leaves the
registry unchanged. (d) Starting from an empty registry, after the
completion callback has fired for every issued upload (any order covering
exactly the issued ids), the registry is empty. -/
theorem pending_upload_protocol :
    (∀ (s : RMState) (img : Image), pendingInv s →
      hasKey (LoadTextureFromImage s img).2.1 s.pending_images = false ∧
      (LoadTextureFromImage s img).2.2 =
        [Ev.retained (LoadTextureFromImage s img).2.1, Ev.engineCreateTexture,
         Ev.engineSetImage (LoadTextureFromImage s img).2.1] ∧
      (LoadTextureFromImage s img).1.pending_images =
        ((LoadTextureFromImage s img).2.1, img) :: s.pending_images ∧
      pendingInv (LoadTextureFromImage s img).1) ∧
    (∀ (s : RMState) (id : Nat), hasKey id s.pending_images = true →
      keysNodup s.pending_images →
      (FreeRetainedImage s id).1.pending_images =
        s.pending_images.filter (fun e => e.1 != id) ∧
      (FreeRetainedImage s id).2 = [] ∧
      hasKey id (FreeRetainedImage s id).1.pending_images = false) ∧
    (∀ (s : RMState) (id : Nat), hasKey id s.pending_images = false →
      FreeRetainedImage s id = (s, [Ev.logDebugUnknownImage id])) ∧
    (∀ (s : RMState) (imgs : List Image) (ids : List Nat),
      s.pending_images = [] →
      (∀ k, k ∈ ids ↔ k ∈ (uploadMany s imgs).2) →
      (freeMany (uploadMany s imgs).1 ids).pending_images = []) := by
  refine ⟨?_, ?_, ?_, ?_⟩
  · intro s img hinv
    refine ⟨hasKey_of_inv hinv, rfl, rfl, ?_⟩
    intro e he
    have : e ∈ (s.img_id, img) :: s.pending_images := he
    rcases List.mem_cons.mp this with h | h
    · subst h
      show s.img_id < s.img_id + 1
      omega
    · have := hinv e h
      show e.1 < s.img_id + 1
      omega
  · intro s id hk hnd
    have hstep : (FreeRetainedImage s id).1.pending_images =
        s.pending_images.filter (fun e => e.1 != id) := by
      simp [FreeRetainedImage, hk]
      exact removeKey_eq_filter id _ hnd
    refine ⟨hstep, by simp [FreeRetainedImage, hk], ?_⟩
    rw [hstep, hasKey_eq_false_iff]
    intro e he
    have := List.of_mem_filter he
    simpa using this
  · intro s id hk
    simp [FreeRetainedImage, hk]
  · intro s imgs ids hemp hcov
    obtain ⟨-, hids, hpend⟩ := uploadMany_spec imgs s
    have hzip : ((List.range' s.img_id imgs.length).zip imgs).map Prod.fst =
        List.range' s.img_id imgs.length := by
      apply List.map_fst_zip
      rw [List.length_range']
    have hndup : keysNodup (uploadMany s imgs).1.pending_images := by
      rw [hpend, hemp, List.append_nil]
      show (((List.range' s.img_id imgs.length).zip imgs).reverse.map
          Prod.fst).Nodup
      rw [List.map_reverse, hzip, List.nodup_reverse]
      exact List.nodup_range' _ _
    rw [freeMany_pending ids _ hndup]
    apply List.filter_eq_nil_iff.mpr
    intro e he
    rw [hpend, hemp, List.append_nil, List.mem_reverse] at he
    have hmem : e.1 ∈ List.range' s.img_id imgs.length := by
      obtain ⟨a, b⟩ := e
      exact (List.of_mem_zip he).1
    have : e.1 ∈ ids := (hcov e.1).mpr (hids ▸ hmem)
    simp [this]

/-- Witness for C2: one upload from the initial state uses the fresh id 1,
and firing its callback leaves the registry empty. -/
theorem pending_upload_protocol_witness :
    hasKey (LoadTextureFromImage initState sampleImage).2.1
        initState.pending_images = false ∧
      (freeMany (uploadMany initState [sampleImage]).1 [1]).pending_images = [] := by
  have hinv : pendingInv initState := fun e he => nomatch he
  refine ⟨(pending_upload_protocol.1 initState sampleImage hinv).1, ?_⟩
  exact pending_upload_protocol.2.2.2 initState [sampleImage] [1] rfl
    (fun k => Iff.rfl)

mutual

/-- A dependency tree rooted at a handle, describing the cascade Destroy is
expected to perform: the children are the handles recorded as dependents of
the root, each with their own subtree. -/
inductive DTree where
  | node : REHandle → DForest → DTree

/-- A list of dependency trees. -/
inductive DForest where
  | nil : DForest
  | cons : DTree → DForest → DForest

end

/-- Root handle of a dependency tree. -/
def DTree.root : DTree → REHandle
  | .node h _ => h

mutual

/-- All handles of a dependency tree in preorder: the root first, then the
transitive dependents. -/
def nodesT : DTree → List REHandle
  | .node h f => h :: nodesF f

/-- All handles of a forest, in order. -/
def nodesF : DForest → List REHandle
  | .nil => []
  | .cons t f => nodesT t ++ nodesF f

end

mutual

/-- Height of a dependency tree (at least 1), bounding the recursion depth
Destroy needs. -/
def heightT : DTree → Nat
  | .node _ f => heightF f + 1

/-- Height of a forest. -/
def heightF : DForest → Nat
  | .nil => 0
  | .cons t f => max (heightT t) (heightF f)

end

/-- Root handles of the trees of a forest: the recorded dependent list. -/
def rootsF : DForest → List REHandle
  | .nil => []
  | .cons t f => t.root :: rootsF f

/-- The dependencies_ record a node with the given children must carry: no
record at all for a leaf (records are only ever created non-empty), and the
exact child list otherwise. -/
def depsSpec : DForest → Option (List REHandle)
  | .nil => none
  | .cons t f => some (rootsF (DForest.cons t f))

mutual

/-- Whether a dependency tree describes the given manager state: every node
is a non-default handle of a managed kind whose id is present in its kind's
container, and its dependencies_ record holds exactly its children's roots
(no record for leaves). -/
def MatchesT (s : RMState) : DTree → Bool
  | .node h f =>
    decide (h ∉ kDefaultResources) &&
    decide (h.type ≠ EntityType.Unknown) &&
    decide (h.id ∈ s.containers h.type) &&
    decide (s.deps h = depsSpec f) &&
    MatchesF s f

/-- Forest version of MatchesT. -/
def MatchesF (s : RMState) : DForest → Bool
  | .nil => true
  | .cons t f => MatchesT s t && MatchesF s f

end

/-- Relation between a state, a set of destroyed handles and the resulting
state: containers only shrink, handles outside the set keep their container
membership and dependency records, and every destroyed handle is gone from
its container and has no dependency record; all other manager state is
untouched. -/
structure Removes (s : RMState) (l : List REHandle) (s' : RMState) : Prop where
  sub : ∀ u, List.Sublist (s'.containers u) (s.containers u)
  keep : ∀ x : REHandle, x ∉ l →
    (x.id ∈ s'.containers x.type ↔ x.id ∈ s.containers x.type)
  out : ∀ x ∈ l, x.id ∉ s'.containers x.type
  depsKeep : ∀ x : REHandle, x ∉ l → s'.deps x = s.deps x
  depsOut : ∀ x ∈ l, s'.deps x = none
  imgIdEq : s'.img_id = s.img_id
  pendingEq : s'.pending_images = s.pending_images
  nextIdEq : s'.nextId = s.nextId

theorem removes_nil (s : RMState) : Removes s [] s := by
  refine ⟨?_, ?_, ?_, ?_, ?_, ?_, ?_, ?_⟩
  · exact fun _ => List.Sublist.refl _
  · exact fun _ _ => Iff.rfl
  · exact fun _ hx => nomatch hx
  · exact fun _ _ => rfl
  · exact fun _ hx => nomatch hx
  · rfl
  · rfl
  · rfl

theorem Removes.trans {s s1 s2 : RMState} {l1 l2 : List REHandle}
    (r1 : Removes s l1 s1) (r2 : Removes s1 l2 s2) :
    Removes s (l1 ++ l2) s2 := by
  refine ⟨fun u => (r2.sub u).trans (r1.sub u), ?_, ?_, ?_, ?_, ?_, ?_, ?_⟩
  · intro x hx
    rw [List.mem_append] at hx
    push_neg at hx
    exact (r2.keep x hx.2).trans (r1.keep x hx.1)
  · intro x hx
    rw [List.mem_append] at hx
    rcases hx with hx | hx
    · intro hmem
      exact r1.out x hx ((r2.sub x.type).subset hmem)
    · exact r2.out x hx
  · intro x hx
    rw [List.mem_append] at hx
    push_neg at hx
    exact (r2.depsKeep x hx.2).trans (r1.depsKeep x hx.1)
  · intro x hx
    rw [List.mem_append] at hx
    rcases hx with hx | hx
    · by_cases hx2 : x ∈ l2
      · exact r2.depsOut x hx2
      · exact (r2.depsKeep x hx2).trans (r1.depsOut x hx)
    · exact r2.depsOut x hx
  · exact r2.imgIdEq.trans r1.imgIdEq
  · exact r2.pendingEq.trans r1.pendingEq
  · exact r2.nextIdEq.trans r1.nextIdEq

theorem Removes.nodup {s s' : RMState} {l : List REHandle}
    (r : Removes s l s') (hnd : ∀ u, (s.containers u).Nodup) :
    ∀ u, (s'.containers u).Nodup :=
  fun u => List.Nodup.sublist (r.sub u) (hnd u)

theorem setContainer_containers_self (s : RMState) (t : EntityType)
    (c : List Nat) : (s.setContainer t c).containers t = c := by
  simp [RMState.setContainer]

theorem setContainer_containers_other (s : RMState) {t u : EntityType}
    (c : List Nat) (h : u ≠ t) : (s.setContainer t c).containers u = s.containers u := by
  simp [RMState.setContainer, h]

theorem setContainer_deps (s : RMState) (t : EntityType) (c : List Nat) :
    (s.setContainer t c).deps = s.deps := rfl

theorem eraseDeps_deps_self (s : RMState) (h : REHandle) :
    (s.eraseDeps h).deps h = none := by
  simp [RMState.eraseDeps]

theorem eraseDeps_deps_other (s : RMState) {h x : REHandle} (hx : x ≠ h) :
    (s.eraseDeps h).deps x = s.deps x := by
  simp [RMState.eraseDeps, hx]

theorem eraseDeps_containers (s : RMState) (h : REHandle) :
    (s.eraseDeps h).containers = s.containers := rfl

/-- Removes for the erasure of a single container entry whose dependency
record is already absent (the leaf case of Destroy). -/
theorem removes_single (s : RMState) (h : REHandle)
    (hc : h.id ∈ s.containers h.type) (hnd : ∀ u, (s.containers u).Nodup)
    (hdn : s.deps h = none) :
    Removes s [h] (s.setContainer h.type ((s.containers h.type).erase h.id)) := by
  refine ⟨?_, ?_, ?_, ?_, ?_, rfl, rfl, rfl⟩
  · intro u
    by_cases hu : u = h.type
    · subst hu
      rw [setContainer_containers_self]
      exact List.erase_sublist _ _
    · rw [setContainer_containers_other _ _ hu]
  · intro x hx
    have hxh : x ≠ h := by simpa using hx
    by_cases hu : x.type = h.type
    · rw [hu, setContainer_containers_self]
      have hidne : x.id ≠ h.id := by
        intro hid
        exact hxh (by cases x; cases h; simp_all)
      rw [List.Nodup.mem_erase_iff (hnd h.type)]
      exact ⟨fun hm => hm.2, fun hm => ⟨hidne, hm⟩⟩
    · rw [setContainer_containers_other _ _ hu]
  · intro x hx
    have : x = h := by simpa using hx
    subst this
    rw [setContainer_containers_self]
    exact List.Nodup.not_mem_erase (hnd x.type)
  · intro x _
    rfl
  · intro x hx
    have : x = h := by simpa using hx
    subst this
    exact hdn

/-- Removes for the full step of Destroy on a handle with a dependency
record: erase the container entry, cascade into the dependents (given as a
Removes from the intermediate state), then erase the dependency record. -/
theorem removes_step (s s2 : RMState) (h : REHandle) (l2 : List REHandle)
    (hc : h.id ∈ s.containers h.type) (hnd : ∀ u, (s.containers u).Nodup)
    (hnotin : h ∉ l2)
    (r2 : Removes (s.setContainer h.type ((s.containers h.type).erase h.id)) l2 s2) :
    Removes s (h :: l2) (s2.eraseDeps h) := by
  have sub1 : ∀ u, List.Sublist
      ((s.setContainer h.type ((s.containers h.type).erase h.id)).containers u)
      (s.containers u) := by
    intro u
    by_cases hu : u = h.type
    · subst hu
      rw [setContainer_containers_self]
      exact List.erase_sublist _ _
    · rw [setContainer_containers_other _ _ hu]
  refine ⟨?_, ?_, ?_, ?_, ?_, ?_, ?_, ?_⟩
  · intro u
    rw [eraseDeps_containers]
    exact (r2.sub u).trans (sub1 u)
  · intro x hx
    rw [List.mem_cons] at hx
    push_neg at hx
    rw [eraseDeps_containers]
    refine (r2.keep x hx.2).trans ?_
    by_cases hu : x.type = h.type
    · rw [hu, setContainer_containers_self]
      have hidne : x.id ≠ h.id := by
        intro hid
        exact hx.1 (by cases x; cases h; simp_all)
      rw [List.Nodup.mem_erase_iff (hnd h.type)]
      exact ⟨fun hm => hm.2, fun hm => ⟨hidne, hm⟩⟩
    · rw [setContainer_containers_other _ _ hu]
  · intro x hx
    rw [List.mem_cons] at hx
    rw [eraseDeps_containers]
    rcases hx with rfl | hx
    · intro hmem
      have hin1 := (r2.sub x.type).subset hmem
      rw [setContainer_containers_self] at hin1
      exact List.Nodup.not_mem_erase (hnd x.type) hin1
    · exact r2.out x hx
  · intro x hx
    rw [List.mem_cons] at hx
    push_neg at hx
    rw [eraseDeps_deps_other _ hx.1, r2.depsKeep x hx.2, setContainer_deps]
  · intro x hx
    rw [List.mem_cons] at hx
    rcases hx with rfl | hx
    · exact eraseDeps_deps_self _ _
    · have hxh : x ≠ h := fun he => hnotin (he ▸ hx)
      rw [eraseDeps_deps_other _ hxh]
      exact r2.depsOut x hx
  · exact r2.imgIdEq
  · exact r2.pendingEq
  · exact r2.nextIdEq

theorem setContainer_erase_keep (s : RMState) (h x : REHandle) (hxh : x ≠ h)
    (hnd : ∀ u, (s.containers u).Nodup) :
    x.id ∈ (s.setContainer h.type ((s.containers h.type).erase h.id)).containers x.type ↔
      x.id ∈ s.containers x.type := by
  by_cases hu : x.type = h.type
  · rw [hu, setContainer_containers_self]
    have hidne : x.id ≠ h.id := by
      intro hid
      exact hxh (by cases x; cases h; simp_all)
    rw [List.Nodup.mem_erase_iff (hnd h.type)]
    exact ⟨fun hm => hm.2, fun hm => ⟨hidne, hm⟩⟩
  · rw [setContainer_containers_other _ _ hu]

theorem setContainer_erase_nodup (s : RMState) (h : REHandle)
    (hnd : ∀ u, (s.containers u).Nodup) :
    ∀ u, ((s.setContainer h.type ((s.containers h.type).erase h.id)).containers u).Nodup := by
  intro u
  by_cases hu : u = h.type
  · subst hu
    rw [setContainer_containers_self]
    exact List.Nodup.sublist (List.erase_sublist _ _) (hnd _)
  · rw [setContainer_containers_other _ _ hu]
    exact hnd u

mutual

theorem matchesT_preserve (s s' : RMState) (t : DTree) (hm : MatchesT s t = true)
    (hag : ∀ x ∈ nodesT t, s'.deps x = s.deps x ∧
      (x.id ∈ s.containers x.type → x.id ∈ s'.containers x.type)) :
    MatchesT s' t = true := by
  cases t with
  | node h f =>
    simp only [MatchesT, Bool.and_eq_true, decide_eq_true_eq] at hm ⊢
    obtain ⟨⟨⟨⟨h1, h2⟩, h3⟩, h4⟩, h5⟩ := hm
    have hroot := hag h (by simp [nodesT])
    refine ⟨⟨⟨⟨h1, h2⟩, hroot.2 h3⟩, hroot.1.trans h4⟩, ?_⟩
    exact matchesF_preserve s s' f h5 (fun x hx => hag x (by simp [nodesT, hx]))

theorem matchesF_preserve (s s' : RMState) (f : DForest) (hm : MatchesF s f = true)
    (hag : ∀ x ∈ nodesF f, s'.deps x = s.deps x ∧
      (x.id ∈ s.containers x.type → x.id ∈ s'.containers x.type)) :
    MatchesF s' f = true := by
  cases f with
  | nil => rfl
  | cons t f' =>
    simp only [MatchesF, Bool.and_eq_true] at hm ⊢
    refine ⟨matchesT_preserve s s' t hm.1 (fun x hx => hag x ?_),
            matchesF_preserve s s' f' hm.2 (fun x hx => hag x ?_)⟩
    · simp [nodesF, hx]
    · simp [nodesF, hx]

end

theorem matchesF_of_removes {s s' : RMState} {l : List REHandle} (f : DForest)
    (r : Removes s l s') (hm : MatchesF s f = true)
    (hdisj : ∀ x ∈ nodesF f, x ∉ l) :
    MatchesF s' f = true :=
  matchesF_preserve s s' f hm (fun x hx =>
    ⟨r.depsKeep x (hdisj x hx), fun hc => (r.keep x (hdisj x hx)).mpr hc⟩)

mutual

theorem destroy_tree_spec (n : Nat) (s : RMState) (t : DTree)
    (hm : MatchesT s t = true) (hnd : ∀ u, (s.containers u).Nodup)
    (hdist : (nodesT t).Nodup) (hf : heightT t ≤ n) :
    Removes s (nodesT t) (destroyFuel n s t.root).1 ∧
      (destroyFuel n s t.root).2 = (nodesT t).map Ev.erased := by
  cases t with
  | node h f =>
    obtain ⟨m, rfl⟩ : ∃ m, n = m + 1 := by
      cases n with
      | zero => exact absurd hf (by simp [heightT])
      | succ k => exact ⟨k, rfl⟩
    simp only [MatchesT, Bool.and_eq_true, decide_eq_true_eq] at hm
    obtain ⟨⟨⟨⟨h1, h2⟩, h3⟩, h4⟩, h5⟩ := hm
    have hroot : DTree.root (DTree.node h f) = h := rfl
    have hdest : destroyFuel (m + 1) s h =
        (let r := destroyResource h (s.containers h.type)
         let s1 := s.setContainer h.type r.1
         match s1.deps h with
         | none => (s1, r.2)
         | some ds =>
           let r2 := destroyEach m s1 ds
           (r2.1.eraseDeps h, r.2 ++ r2.2)) := by
      rw [destroyFuel]
      rw [if_neg h1, if_neg h2]
    have hres : destroyResource h (s.containers h.type) =
        ((s.containers h.type).erase h.id, [Ev.erased h]) := by
      simp [destroyResource, h3]
    rw [hroot, hdest, hres]
    have hdeps1 : (s.setContainer h.type ((s.containers h.type).erase h.id)).deps h
        = depsSpec f := by
      rw [setContainer_deps]
      exact h4
    cases f with
    | nil =>
      simp only [depsSpec] at hdeps1
      simp only [hdeps1]
      constructor
      · have : nodesT (DTree.node h DForest.nil) = [h] := rfl
        rw [this]
        exact removes_single s h h3 hnd (by
          have := h4
          simpa [depsSpec] using this)
      · rfl
    | cons t' f'' =>
      simp only [depsSpec] at hdeps1
      simp only [hdeps1]
      have hdist' : (nodesF (DForest.cons t' f'')).Nodup :=
        (List.nodup_cons.mp hdist).2
      have hnotin : h ∉ nodesF (DForest.cons t' f'') :=
        (List.nodup_cons.mp hdist).1
      have hm1 : MatchesF (s.setContainer h.type ((s.containers h.type).erase h.id))
          (DForest.cons t' f'') = true := by
        apply matchesF_preserve s _ _ h5
        intro x hx
        have hxh : x ≠ h := fun he => hnotin (he ▸ hx)
        exact ⟨rfl, fun hc => (setContainer_erase_keep s h x hxh hnd).mpr hc⟩
      have hnd1 := setContainer_erase_nodup s h hnd
      have hfm : heightF (DForest.cons t' f'') ≤ m := by
        have : heightT (DTree.node h (DForest.cons t' f'')) =
            heightF (DForest.cons t' f'') + 1 := rfl
        omega
      obtain ⟨rF, evF⟩ := destroy_forest_spec m
        (s.setContainer h.type ((s.containers h.type).erase h.id))
        (DForest.cons t' f'') hm1 hnd1 hdist' hfm
      constructor
      · have : nodesT (DTree.node h (DForest.cons t' f'')) =
            h :: nodesF (DForest.cons t' f'') := rfl
        rw [this]
        exact removes_step s _ h _ h3 hnd hnotin rF
      · show Ev.erased h :: (destroyEach m _ _).2 = _
        rw [evF]
        rfl

theorem destroy_forest_spec (n : Nat) (s : RMState) (f : DForest)
    (hm : MatchesF s f = true) (hnd : ∀ u, (s.containers u).Nodup)
    (hdist : (nodesF f).Nodup) (hf : heightF f ≤ n) :
    Removes s (nodesF f) (destroyEach n s (rootsF f)).1 ∧
      (destroyEach n s (rootsF f)).2 = (nodesF f).map Ev.erased := by
  cases f with
  | nil =>
    simp only [nodesF, rootsF, destroyEach]
    exact ⟨removes_nil s, rfl⟩
  | cons t f' =>
    simp only [MatchesF, Bool.and_eq_true] at hm
    have hnodes : nodesF (DForest.cons t f') = nodesT t ++ nodesF f' := rfl
    rw [hnodes] at hdist
    rw [List.nodup_append] at hdist
    obtain ⟨hdt, hdf, hdisj⟩ := hdist
    have hft : heightT t ≤ n := le_trans (le_max_left _ _) hf
    have hff : heightF f' ≤ n := le_trans (le_max_right _ _) hf
    obtain ⟨r1, ev1⟩ := destroy_tree_spec n s t hm.1 hnd hdt hft
    have hm2 : MatchesF (destroyFuel n s t.root).1 f' = true := by
      apply matchesF_of_removes f' r1 hm.2
      intro x hx hmem
      exact hdisj hmem hx
    obtain ⟨r2, ev2⟩ := destroy_forest_spec n (destroyFuel n s t.root).1 f'
      hm2 (r1.nodup hnd) hdf hff
    have hstep : destroyEach n s (rootsF (DForest.cons t f')) =
        ((destroyEach n (destroyFuel n s t.root).1 (rootsF f')).1,
         (destroyFuel n s t.root).2 ++
           (destroyEach n (destroyFuel n s t.root).1 (rootsF f')).2) := by
      rw [rootsF]
      rw [destroyEach]
    rw [hstep, hnodes]
    exact ⟨r1.trans r2, by rw [ev1, ev2, List.map_append]⟩

end

theorem setContainer_self (s : RMState) (t : EntityType) :
    s.setContainer t (s.containers t) = s := by
  have hcv : (fun u => if u = t then s.containers t else s.containers u) =
      s.containers := by
    funext u
    by_cases hu : u = t
    · subst hu; simp
    · simp [hu]
  unfold RMState.setContainer
  rw [hcv]

theorem destroy_unknown (s : RMState) (g : REHandle) (m : Nat)
    (h1 : g ∉ kDefaultResources) (h2 : g.type ≠ EntityType.Unknown)
    (h3 : g.id ∉ s.containers g.type) (h4 : s.deps g = none) :
    destroyFuel (m + 1) s g = (s, [Ev.logErrorNonexistent g]) := by
  rw [destroyFuel, if_neg h1, if_neg h2]
  have hres : destroyResource g (s.containers g.type) =
      (s.containers g.type, [Ev.logErrorNonexistent g]) := by
    simp [destroyResource, h3]
  simp only [hres, setContainer_self]
  rw [h4]

theorem root_mem_nodesT (t : DTree) : t.root ∈ nodesT t := by
  cases t with
  | node h f =>
    show h ∈ h :: nodesF f
    exact List.mem_cons_self h _

theorem erased_injective : Function.Injective Ev.erased := by
  intro a b hab
  injection hab

/-- C3: Destroy on a non-default handle present in its container, whose
recorded dependents (with their transitive dependents) form the dependency
tree t rooted at that handle: the trace erases the root's container entry
first and then every transitive dependent, each exactly once; the root's
container entry and dependency record are gone afterwards; calling Destroy
again on the root — or on any unknown non-default handle of a managed
kind — is a logged error and a no-op. -/
theorem destroy_cascade (n : Nat) (s : RMState) (t : DTree)
    (hm : MatchesT s t = true) (hnd : ∀ u, (s.containers u).Nodup)
    (hdist : (nodesT t).Nodup) (hf : heightT t ≤ n) :
    (destroyFuel n s t.root).2 = (nodesT t).map Ev.erased ∧
    (∀ d ∈ nodesT t, (destroyFuel n s t.root).2.count (Ev.erased d) = 1) ∧
    t.root.id ∉ (destroyFuel n s t.root).1.containers t.root.type ∧
    (destroyFuel n s t.root).1.deps t.root = none ∧
    (∀ m, destroyFuel (m + 1) (destroyFuel n s t.root).1 t.root =
      ((destroyFuel n s t.root).1, [Ev.logErrorNonexistent t.root])) ∧
    (∀ g : REHandle, g ∉ kDefaultResources → g.type ≠ EntityType.Unknown →
      g.id ∉ s.containers g.type → s.deps g = none →
      ∀ m, destroyFuel (m + 1) s g = (s, [Ev.logErrorNonexistent g])) := by
  obtain ⟨r, ev⟩ := destroy_tree_spec n s t hm hnd hdist hf
  have hrootdef : t.root ∉ kDefaultResources ∧ t.root.type ≠ EntityType.Unknown := by
    cases t with
    | node h f =>
      simp only [MatchesT, Bool.and_eq_true, decide_eq_true_eq] at hm
      exact ⟨hm.1.1.1.1, hm.1.1.1.2⟩
  refine ⟨ev, ?_, ?_, ?_, ?_, ?_⟩
  · intro d hd
    rw [ev, List.count_map_of_injective _ _ erased_injective]
    exact List.count_eq_one_of_mem hdist hd
  · exact r.out t.root (root_mem_nodesT t)
  · exact r.depsOut t.root (root_mem_nodesT t)
  · intro m
    exact destroy_unknown _ t.root m hrootdef.1 hrootdef.2
      (r.out t.root (root_mem_nodesT t)) (r.depsOut t.root (root_mem_nodesT t))
  · intro g hg1 hg2 hg3 hg4 m
    exact destroy_unknown s g m hg1 hg2 hg3 hg4

/-- Concrete state for the C3 witness: one material instance (id 5) with
two recorded texture dependents (ids 7 and 8). -/
def witnessState : RMState where
  containers := fun u =>
    match u with
    | EntityType.MaterialInstance => [5]
    | EntityType.Texture => [7, 8]
    | _ => []
  deps := fun x =>
    if x = ⟨EntityType.MaterialInstance, 5⟩ then
      some [⟨EntityType.Texture, 7⟩, ⟨EntityType.Texture, 8⟩]
    else none
  nextId := fun _ => 9
  img_id := 1
  pending_images := []

/-- Dependency tree of the C3 witness. -/
def witnessTree : DTree :=
  DTree.node ⟨EntityType.MaterialInstance, 5⟩
    (DForest.cons (DTree.node ⟨EntityType.Texture, 7⟩ DForest.nil)
      (DForest.cons (DTree.node ⟨EntityType.Texture, 8⟩ DForest.nil) DForest.nil))

/-- Witness for C3: destroying the instance erases it plus both dependent
textures exactly once each, re-destroying it errors, and destroying an
unknown texture handle errors without changing the state. -/
theorem destroy_cascade_witness :
    (destroyFuel 2 witnessState witnessTree.root).2 =
      (nodesT witnessTree).map Ev.erased ∧
    (destroyFuel 2 witnessState witnessTree.root).2.count
      (Ev.erased ⟨EntityType.Texture, 7⟩) = 1 ∧
    witnessTree.root.id ∉
      (destroyFuel 2 witnessState witnessTree.root).1.containers witnessTree.root.type ∧
    (destroyFuel 2 witnessState witnessTree.root).1.deps witnessTree.root = none ∧
    destroyFuel 1 (destroyFuel 2 witnessState witnessTree.root).1 witnessTree.root =
      ((destroyFuel 2 witnessState witnessTree.root).1,
       [Ev.logErrorNonexistent witnessTree.root]) ∧
    destroyFuel 1 witnessState ⟨EntityType.Texture, 99⟩ =
      (witnessState, [Ev.logErrorNonexistent ⟨EntityType.Texture, 99⟩]) := by
  have h := destroy_cascade 2 witnessState witnessTree (by decide)
    (by intro u; cases u <;> decide) (by decide) (by decide)
  exact ⟨h.1, h.2.1 _ (by decide), h.2.2.1, h.2.2.2.1, h.2.2.2.2.1 0,
    h.2.2.2.2.2 ⟨EntityType.Texture, 99⟩ (by decide) (by decide) (by decide)
      (by decide) 0⟩

/-- C1: Destroy on any member of the fixed default-resource set (the default
lit/unlit/depth/normal materials, their default material instances
kDepthMaterial and kNormalsMaterial, and the default/color-map/normal-map
textures) is a no-op with a diagnostic: the state, and in particular every
resource container, is left unchanged, and only the debug log line is
emitted. -/
theorem destroy_default_resource_noop (n : Nat) (s : RMState) (h : REHandle)
    (hd : h ∈ kDefaultResources) :
    destroyFuel (n + 1) s h = (s, [Ev.logDebugDefaultDestroy h]) := by
  simp [destroyFuel, hd]

/-- Witness for C1 at the default lit material in the initial state. -/
theorem destroy_default_resource_noop_witness :
    kDefaultLit ∈ kDefaultResources ∧
      destroyFuel 1 initState kDefaultLit =
        (initState, [Ev.logDebugDefaultDestroy kDefaultLit]) :=
  ⟨by decide, destroy_default_resource_noop 0 initState kDefaultLit (by decide)⟩

/-- RegisterResource (non-null resource path): allocate the next handle of
the kind via Handle::Next and insert the resource into the kind's
container. The null-resource branch of the template logs an error and
returns kBad without registering; the builder results modelled here are the
non-null ones. -/
def RegisterResource (s : RMState) (t : EntityType) : RMState × REHandle :=
  ({ s with
      containers := fun u =>
        if u = t then s.containers t ++ [s.nextId t] else s.containers u,
      nextId := fun u => if u = t then s.nextId t + 1 else s.nextId u },
   ⟨t, s.nextId t⟩)

/-- CreateTexture(const shared_ptr<Image>&): the image pointer is
dereferenced for the HasData check before any null guard, so a null pointer
(none) is an unguarded dereference, modelled as the none result. An image
with data is loaded and registered; one without data yields the invalid
handle with no engine call and nothing registered. -/
def CreateTexture (s : RMState) (img : Option Image) :
    Option (RMState × REHandle × List Ev) :=
  match img with
  | none => none
  | some im =>
    if im.HasData then
      let r := LoadTextureFromImage s im
      let r2 := RegisterResource r.1 EntityType.Texture
      some (r2.1, r2.2, r.2.2)
    else
      some (s, REHandle.bad EntityType.Texture, [])

/-- CreateTexture(const char* path): a non-null path loads the image from
file (io::CreateImageFromFile always returns an allocated image, supplied
here by the readImage oracle); a null path only logs a warning, leaving the
image pointer null, and then calls the pointer overload on it. The events
emitted before that call are returned alongside its result. -/
def CreateTexturePath (s : RMState) (path : Option String)
    (readImage : String → Image) :
    List Ev × Option (RMState × REHandle × List Ev) :=
  match path with
  | some p => ([], CreateTexture s (some (readImage p)))
  | none => ([Ev.logWarnEmptyPath], CreateTexture s none)

/-- C7: CreateTexture on an image whose pixel buffer is empty returns the
invalid texture handle, issues no engine call (empty trace) and leaves the
manager state — in particular the texture container — unchanged. -/
theorem create_texture_no_data (s : RMState) (img : Image)
    (h : img.data = []) :
    CreateTexture s (some img) = some (s, REHandle.bad EntityType.Texture, []) := by
  have hhd : img.HasData = false := by simp [Image.HasData, h]
  simp [CreateTexture, hhd]

/-- Witness for C7 at a concrete data-less image. -/
theorem create_texture_no_data_witness :
    CreateTexture initState (some ⟨0, 0, 3, 1, []⟩) =
      some (initState, REHandle.bad EntityType.Texture, []) :=
  create_texture_no_data initState ⟨0, 0, 3, 1, []⟩ rfl

/-- C9: the data-less-image rejection is total only for non-null image
pointers: CreateTexture on any allocated image returns a result (isSome),
but the HasData check dereferences the pointer before any guard, so the
none pointer reaches undefined behaviour (none result) instead of the
invalid handle — and CreateTexture(path) with a null path takes exactly
that route after logging its warning. -/
theorem create_texture_null_path_deref (s : RMState)
    (readImage : String → Image) :
    (∀ img : Image, (CreateTexture s (some img)).isSome = true) ∧
    CreateTexture s none = none ∧
    (CreateTexturePath s none readImage).1 = [Ev.logWarnEmptyPath] ∧
    (CreateTexturePath s none readImage).2 = none := by
  refine ⟨?_, rfl, rfl, rfl⟩
  intro img
  by_cases hhd : img.HasData <;> simp [CreateTexture, hhd]

/-- Record a dependency edge: dependencies_[owner].insert(dep). -/
def RMState.addDep (s : RMState) (owner dep : REHandle) : RMState :=
  { s with deps := fun x =>
      if x = owner then some ((s.deps owner).getD [] ++ [dep]) else s.deps x }

/-- ResourceLoadRequest: only the path field matters to the operations
modelled here; the error callback is recorded as events. -/
structure ResourceLoadRequest where
  path : String

/-- CreateIndirectLight: read the environment file (readFile oracle; none
is an I/O failure carrying errno), decode the ktx cubemap texture, extract
spherical harmonics (shOk oracle) and build the indirect light (builderOk
oracle). On a missing spherical-harmonics block the cubemap texture is
destroyed and the error callback fires with code 2; on a builder failure
the callback fires with code 3 and the texture is destroyed; only on
success are the light and its dependent texture registered. -/
def CreateIndirectLight (s : RMState) (req : ResourceLoadRequest)
    (readFile : Option (List Nat)) (errnoCode : Int) (errMsg : String)
    (shOk : Bool) (builderOk : Bool) : RMState × REHandle × List Ev :=
  if req.path.isEmpty then
    (s, REHandle.bad EntityType.IndirectLight, [Ev.errorCallback (-1) ""])
  else
    match readFile with
    | none =>
      (s, REHandle.bad EntityType.IndirectLight,
       [Ev.errorCallback errnoCode errMsg])
    | some _ =>
      if shOk then
        if builderOk then
          let r1 := RegisterResource s EntityType.IndirectLight
          let r2 := RegisterResource r1.1 EntityType.Texture
          (r2.1.addDep r1.2 r2.2, r1.2,
           [Ev.engineKtxCreateTexture, Ev.engineBuildIndirectLight])
        else
          (s, REHandle.bad EntityType.IndirectLight,
           [Ev.engineKtxCreateTexture, Ev.engineBuildIndirectLight,
            Ev.errorCallback 3 "Failed to create indirect light from ktx",
            Ev.engineDestroyTexture])
      else
        (s, REHandle.bad EntityType.IndirectLight,
         [Ev.engineKtxCreateTexture, Ev.engineDestroyTexture,
          Ev.errorCallback 2 "Failed to read spherical harmonics from ktx"])

/-- C6: CreateIndirectLight on a readable file whose environment map fails
to decode: with the spherical-harmonics block missing the error callback
fires with code 2, and with the indirect-light builder rejecting the data
it fires with code 3; in both cases the already-created cubemap texture is
explicitly destroyed, the state is unchanged (no texture or light handle
registered in any container) and the invalid handle is returned. -/
theorem create_indirect_light_decode_failure (s : RMState)
    (req : ResourceLoadRequest) (d : List Nat) (errnoCode : Int)
    (errMsg : String) (b : Bool) (hpath : req.path.isEmpty = false) :
    CreateIndirectLight s req (some d) errnoCode errMsg false b =
      (s, REHandle.bad EntityType.IndirectLight,
       [Ev.engineKtxCreateTexture, Ev.engineDestroyTexture,
        Ev.errorCallback 2 "Failed to read spherical harmonics from ktx"]) ∧
    CreateIndirectLight s req (some d) errnoCode errMsg true false =
      (s, REHandle.bad EntityType.IndirectLight,
       [Ev.engineKtxCreateTexture, Ev.engineBuildIndirectLight,
        Ev.errorCallback 3 "Failed to create indirect light from ktx",
        Ev.engineDestroyTexture]) := by
  constructor
  · simp [CreateIndirectLight, hpath]
  · simp [CreateIndirectLight, hpath]

/-- Witness for C6 at a concrete request. -/
theorem create_indirect_light_decode_failure_witness :
    CreateIndirectLight initState ⟨"env.ktx"⟩ (some [0]) 0 "" false true =
      (initState, REHandle.bad EntityType.IndirectLight,
       [Ev.engineKtxCreateTexture, Ev.engineDestroyTexture,
        Ev.errorCallback 2 "Failed to read spherical harmonics from ktx"]) ∧
    CreateIndirectLight initState ⟨"env.ktx"⟩ (some [0]) 0 "" true false =
      (initState, REHandle.bad EntityType.IndirectLight,
       [Ev.engineKtxCreateTexture, Ev.engineBuildIndirectLight,
        Ev.errorCallback 3 "Failed to create indirect light from ktx",
        Ev.engineDestroyTexture]) :=
  create_indirect_light_decode_failure initState ⟨"env.ktx"⟩ [0] 0 "" true rfl

/-- A registered off-screen buffer renderer as the Renderer sees it: its
raw identity and its pending flag. -/
structure BufferRenderer where
  id : Nat
  pending : Bool
  deriving DecidableEq, Repr

/-- Observable events of FilamentRenderer. -/
inductive REv where
  | renderedBuffer (id : Nat)
  | engineBeginFrame (ok : Bool)
  | sceneDraw (sceneId : Nat)
  | guiSceneDraw (sceneId : Nat)
  | engineEndFrame
  | logWarnGuiSceneSet
  | sceneDestroyed (sceneId : Nat)
  deriving DecidableEq, Repr

/-- State of FilamentRenderer: the frame_started_ flag, the scene registry
scenes_ (handle id mapped to the identity of the owned scene object), the
single owned overlay slot gui_scene_, and the registered buffer
renderers. -/
structure RendererState where
  frame_started : Bool
  scenes : List (Nat × Nat)
  gui_scene : Option Nat
  buffer_renderers : List BufferRenderer
  deriving DecidableEq, Repr

/-- Modelled from the spec: FilamentRenderToBuffer::Render (defined outside
the given sources). Per the spec, each pending buffer renderer "draws to
completion synchronously" during BeginFrame and its pending flag is
cleared. -/
def renderBuffer (br : BufferRenderer) : BufferRenderer × List REv :=
  ({ br with pending := false }, [REv.renderedBuffer br.id])

/-- The loop at the top of BeginFrame: render every buffer renderer whose
pending flag is set, leaving the others untouched. -/
def serviceBufferRenderers : List BufferRenderer → List BufferRenderer × List REv
  | [] => ([], [])
  | br :: rest =>
    let r := if br.pending then renderBuffer br else (br, [])
    let r2 := serviceBufferRenderers rest
    (r.1 :: r2.1, r.2 ++ r2.2)

/-- FilamentRenderer::BeginFrame: service the pending buffer renderers
first, then start the on-screen swapchain frame; the device's answer
(deviceOk) becomes the frame_started_ flag. -/
def BeginFrame (s : RendererState) (deviceOk : Bool) : RendererState × List REv :=
  let r := serviceBufferRenderers s.buffer_renderers
  ({ s with buffer_renderers := r.1, frame_started := deviceOk },
   r.2 ++ [REv.engineBeginFrame deviceOk])

/-- FilamentRenderer::Draw: nothing when the frame did not begin; otherwise
every registered scene's draw entry point in registry order, then the
overlay scene's. The state is not modified. -/
def Draw (s : RendererState) : List REv :=
  if s.frame_started then
    s.scenes.map (fun p => REv.sceneDraw p.2) ++
      (match s.gui_scene with
       | some g => [REv.guiSceneDraw g]
       | none => [])
  else []

/-- FilamentRenderer::EndFrame: submit only if the frame began. -/
def EndFrame (s : RendererState) : List REv :=
  if s.frame_started then [REv.engineEndFrame] else []

/-- FilamentRenderer::ConvertToGuiScene: an unknown handle leaves the state
untouched; a registered handle moves the owned scene object into the
overlay slot (the move-assignment of the owning slot destroys the
previously held overlay object — spec-modelled, the slot's owning-pointer
type is declared outside the given sources) and erases the registry entry,
logging a warning first when an overlay was already set. -/
def ConvertToGuiScene (s : RendererState) (id : Nat) : RendererState × List REv :=
  match s.scenes.find? (fun p => p.1 == id) with
  | none => (s, [])
  | some entry =>
    ({ s with gui_scene := some entry.2,
              scenes := s.scenes.eraseP (fun p => p.1 == id) },
     (if s.gui_scene.isSome then [REv.logWarnGuiSceneSet] else []) ++
       (match s.gui_scene with
        | some old => [REv.sceneDestroyed old]
        | none => []))

/-- C4: when the device refuses to begin the swapchain frame, the
frame-begun flag is false after BeginFrame (and Draw and EndFrame never
modify any state, so it stays false for the cycle); Draw on such a state
invokes no scene's draw entry point and EndFrame performs no submission. -/
theorem frame_cycle_failed_begin (s : RendererState) :
    (BeginFrame s false).1.frame_started = false ∧
    Draw (BeginFrame s false).1 = [] ∧
    EndFrame (BeginFrame s false).1 = [] ∧
    (∀ s' : RendererState, s'.frame_started = false →
      Draw s' = [] ∧ EndFrame s' = []) := by
  refine ⟨rfl, ?_, ?_, ?_⟩
  · simp [Draw, BeginFrame]
  · simp [EndFrame, BeginFrame]
  · intro s' hs'
    exact ⟨by simp [Draw, hs'], by simp [EndFrame, hs']⟩

theorem serviceBufferRenderers_spec (l : List BufferRenderer) :
    (serviceBufferRenderers l).1 = l.map (fun br => ⟨br.id, false⟩) ∧
    (serviceBufferRenderers l).2 =
      (l.filter (fun br => br.pending)).map
        (fun br => REv.renderedBuffer br.id) := by
  induction l with
  | nil => exact ⟨rfl, rfl⟩
  | cons br rest ih =>
    by_cases hp : br.pending = true
    · constructor
      · show ((if br.pending then renderBuffer br else (br, [])).1 ::
            (serviceBufferRenderers rest).1) = _
        rw [hp, ih.1]
        rfl
      · show ((if br.pending then renderBuffer br else (br, [])).2 ++
            (serviceBufferRenderers rest).2) = _
        rw [hp, ih.2]
        simp [renderBuffer, List.filter, hp]
    · have hp' : br.pending = false := by simpa using hp
      constructor
      · show ((if br.pending then renderBuffer br else (br, [])).1 ::
            (serviceBufferRenderers rest).1) = _
        rw [hp', ih.1]
        simp
        cases br with
        | mk i p => simp_all
      · show ((if br.pending then renderBuffer br else (br, [])).2 ++
            (serviceBufferRenderers rest).2) = _
        rw [hp', ih.2]
        simp [List.filter, hp']

/-- C5: BeginFrame renders every registered buffer renderer whose pending
flag is set and clears those flags — the resulting registrations all have
pending false — and the event trace puts all of those renders strictly
before the on-screen engineBeginFrame call that flips the frame-begun
state. -/
theorem begin_frame_services_buffers (s : RendererState) (ok : Bool) :
    (∀ br ∈ (BeginFrame s ok).1.buffer_renderers, br.pending = false) ∧
    (BeginFrame s ok).1.buffer_renderers =
      s.buffer_renderers.map (fun br => ⟨br.id, false⟩) ∧
    (BeginFrame s ok).2 =
      ((s.buffer_renderers.filter (fun br => br.pending)).map
        (fun br => REv.renderedBuffer br.id)) ++ [REv.engineBeginFrame ok] := by
  obtain ⟨h1, h2⟩ := serviceBufferRenderers_spec s.buffer_renderers
  refine ⟨?_, ?_, ?_⟩
  · intro br hbr
    have : br ∈ s.buffer_renderers.map
        (fun br => (⟨br.id, false⟩ : BufferRenderer)) := by
      have hb : (BeginFrame s ok).1.buffer_renderers =
          (serviceBufferRenderers s.buffer_renderers).1 := rfl
      rw [hb, h1] at hbr
      exact hbr
    obtain ⟨a, -, ha⟩ := List.mem_map.mp this
    rw [← ha]
  · show (serviceBufferRenderers s.buffer_renderers).1 = _
    exact h1
  · show (serviceBufferRenderers s.buffer_renderers).2 ++ _ = _
    rw [h2]

/-- Witness for C4 at a concrete renderer state with one scene, an overlay
and a pending buffer renderer. -/
theorem frame_cycle_failed_begin_witness :
    (BeginFrame ⟨true, [(1, 10)], some 20, [⟨3, true⟩]⟩ false).1.frame_started =
      false ∧
    Draw (BeginFrame ⟨true, [(1, 10)], some 20, [⟨3, true⟩]⟩ false).1 = [] ∧
    EndFrame (BeginFrame ⟨true, [(1, 10)], some 20, [⟨3, true⟩]⟩ false).1 = [] ∧
    (Draw ⟨false, [(1, 10)], some 20, []⟩ = [] ∧
      EndFrame ⟨false, [(1, 10)], some 20, []⟩ = []) := by
  have h := frame_cycle_failed_begin ⟨true, [(1, 10)], some 20, [⟨3, true⟩]⟩
  exact ⟨h.1, h.2.1, h.2.2.1, h.2.2.2 ⟨false, [(1, 10)], some 20, []⟩ rfl⟩

/-- Witness for C5: the spec scenario with two pending buffer renderers —
both are rendered, their flags cleared, strictly before the begin-frame
event. -/
theorem begin_frame_services_buffers_witness :
    (⟨3, false⟩ : BufferRenderer).pending = false ∧
    (BeginFrame ⟨false, [], none, [⟨3, true⟩, ⟨4, true⟩]⟩ true).1.buffer_renderers =
      [⟨3, false⟩, ⟨4, false⟩] ∧
    (BeginFrame ⟨false, [], none, [⟨3, true⟩, ⟨4, true⟩]⟩ true).2 =
      [REv.renderedBuffer 3, REv.renderedBuffer 4, REv.engineBeginFrame true] := by
  have h := begin_frame_services_buffers ⟨false, [], none, [⟨3, true⟩, ⟨4, true⟩]⟩ true
  refine ⟨h.1 ⟨3, false⟩ (by decide), h.2.1.trans (by decide),
    h.2.2.trans (by decide)⟩

/-- C8: ConvertToGuiScene on a handle not present in the scene registry
leaves the whole renderer state — overlay slot and registry included —
unchanged with no events; on a registered handle it moves the owned scene
object into the overlay slot, erases exactly that registry entry, keeps the
rest of the state, and logs a warning exactly when an overlay was already
set. -/
theorem convert_to_gui_scene_spec (s : RendererState) (id : Nat) :
    (s.scenes.find? (fun p => p.1 == id) = none →
      ConvertToGuiScene s id = (s, [])) ∧
    (∀ e, s.scenes.find? (fun p => p.1 == id) = some e →
      (ConvertToGuiScene s id).1.gui_scene = some e.2 ∧
      (ConvertToGuiScene s id).1.scenes =
        s.scenes.eraseP (fun p => p.1 == id) ∧
      (ConvertToGuiScene s id).1.frame_started = s.frame_started ∧
      (ConvertToGuiScene s id).1.buffer_renderers = s.buffer_renderers ∧
      (ConvertToGuiScene s id).2 =
        (if s.gui_scene.isSome then [REv.logWarnGuiSceneSet] else []) ++
          (match s.gui_scene with
           | some old => [REv.sceneDestroyed old]
           | none => [])) := by
  constructor
  · intro hnone
    simp [ConvertToGuiScene, hnone]
  · intro e hsome
    simp [ConvertToGuiScene, hsome]

/-- Witness for C8: an unknown handle changes nothing; a known handle moves
the scene into the empty overlay slot without a warning. -/
theorem convert_to_gui_scene_spec_witness :
    ConvertToGuiScene ⟨false, [(1, 10)], none, []⟩ 2 =
      (⟨false, [(1, 10)], none, []⟩, []) ∧
    (ConvertToGuiScene ⟨false, [(1, 10)], none, []⟩ 1).1.gui_scene = some 10 ∧
    (ConvertToGuiScene ⟨false, [(1, 10)], none, []⟩ 1).2 = [] := by
  have h := convert_to_gui_scene_spec ⟨false, [(1, 10)], none, []⟩ 2
  have h' := convert_to_gui_scene_spec ⟨false, [(1, 10)], none, []⟩ 1
  refine ⟨h.1 (by decide), (h'.2 (1, 10) (by decide)).1, ?_⟩
  have := (h'.2 (1, 10) (by decide)).2.2.2.2
  simpa using this

/-- C10: ConvertToGuiScene on a registered handle while an overlay is
already set logs the warning and, through the move-assignment of the owning
overlay slot, destroys the previously held overlay scene object — the old
overlay is released in the same call, not leaked. -/
theorem convert_to_gui_scene_releases_old (s : RendererState) (id old : Nat)
    (e : Nat × Nat) (hfind : s.scenes.find? (fun p => p.1 == id) = some e)
    (hold : s.gui_scene = some old) :
    (ConvertToGuiScene s id).2 =
      [REv.logWarnGuiSceneSet, REv.sceneDestroyed old] ∧
    (ConvertToGuiScene s id).1.gui_scene = some e.2 := by
  simp [ConvertToGuiScene, hfind, hold]

/-- Witness for C10: replacing overlay 20 with scene object 10 emits the
warning and the destruction of 20. -/
theorem convert_to_gui_scene_releases_old_witness :
    (ConvertToGuiScene ⟨false, [(1, 10)], some 20, []⟩ 1).2 =
      [REv.logWarnGuiSceneSet, REv.sceneDestroyed 20] ∧
    (ConvertToGuiScene ⟨false, [(1, 10)], some 20, []⟩ 1).1.gui_scene = some 10 :=
  convert_to_gui_scene_releases_old ⟨false, [(1, 10)], some 20, []⟩ 1 20 (1, 10)
    (by decide) rfl

end Open3D
